import Mathlib

/-!
Verification model of the PennyWise backend (`src/main.py`).

The backend is a FastAPI CRUD service over three SQLite tables (`users`,
`expenses`, `goals`).  We embed it shallowly: the persistent store is an
explicit `DB` value threaded through the handlers, each HTTP handler is a
pure Lean function from `DB` and the parsed request body to either an
`HTTPError` (a raised `HTTPException`) or the new store plus the response
body.  A handler that raises before committing leaves the store unchanged,
which the `Except` result encodes by carrying no store in the error case.

Numeric REAL/float columns are modelled as `ℚ`.  `hashlib.sha256` is
modelled by a full implementation of SHA-256 over the UTF-8 bytes of the
input, with 32-bit words as `Nat` reduced `% 2^32`.  SQLite row order:
rows are kept in insertion (rowid) order; `ORDER BY date ASC` is modelled
as the stable sort by date, i.e. sorting by the key pair (date, id), since
ids are assigned in increasing insertion order.
-/

namespace PennyWise

/-! ### SHA-256 (model of `hashlib.sha256(...).hexdigest()`) -/

/-- Reduce to a 32-bit word. -/
def w32 (n : Nat) : Nat := n % 2 ^ 32

/-- Rotate a 32-bit word right by `n` bits. -/
def rotr32 (n x : Nat) : Nat := w32 ((x >>> n) ||| (x <<< (32 - n)))

/-- SHA-256 Σ0. -/
def bigSigma0 (x : Nat) : Nat := rotr32 2 x ^^^ rotr32 13 x ^^^ rotr32 22 x

/-- SHA-256 Σ1. -/
def bigSigma1 (x : Nat) : Nat := rotr32 6 x ^^^ rotr32 11 x ^^^ rotr32 25 x

/-- SHA-256 σ0. -/
def smallSigma0 (x : Nat) : Nat := rotr32 7 x ^^^ rotr32 18 x ^^^ (x >>> 3)

/-- SHA-256 σ1. -/
def smallSigma1 (x : Nat) : Nat := rotr32 17 x ^^^ rotr32 19 x ^^^ (x >>> 10)

/-- SHA-256 Ch(x,y,z). -/
def chooseFn (x y z : Nat) : Nat := (x &&& y) ^^^ ((x ^^^ 0xffffffff) &&& z)

/-- SHA-256 Maj(x,y,z). -/
def majorityFn (x y z : Nat) : Nat := (x &&& y) ^^^ (x &&& z) ^^^ (y &&& z)

/-- The 64 SHA-256 round constants (decimal renderings of the FIPS 180-4
words, the fractional cube-root bits of the first 64 primes). -/
def sha256K : List Nat :=
  [1116352408, 1899447441, 3049323471, 3921009573, 961987163,
   1508970993, 2453635748, 2870763221, 3624381080, 310598401,
   607225278, 1426881987, 1925078388, 2162078206, 2614888103,
   3248222580, 3835390401, 4022224774, 264347078, 604807628,
   770255983, 1249150122, 1555081692, 1996064986, 2554220882,
   2821834349, 2952996808, 3210313671, 3336571891, 3584528711,
   113926993, 338241895, 666307205, 773529912, 1294757372,
   1396182291, 1695183700, 1986661051, 2177026350, 2456956037,
   2730485921, 2820302411, 3259730800, 3345764771, 3516065817,
   3600352804, 4094571909, 275423344, 430227734, 506948616,
   659060556, 883997877, 958139571, 1322822218, 1537002063,
   1747873779, 1955562222, 2024104815, 2227730452, 2361852424,
   2428436474, 2756734187, 3204031479, 3329325298]

/-- The SHA-256 initial hash value (decimal renderings of the FIPS 180-4
words, the fractional square-root bits of the first 8 primes). -/
def sha256H0 : List Nat :=
  [1779033703, 3144134277, 1013904242, 2773480762,
   1359893119, 2600822924, 528734635, 1541459225]

/-- Big-endian 8-byte encoding of the message bit length. -/
def lenBytes (n : Nat) : List Nat :=
  [(n >>> 56) &&& 0xff, (n >>> 48) &&& 0xff, (n >>> 40) &&& 0xff,
   (n >>> 32) &&& 0xff, (n >>> 24) &&& 0xff, (n >>> 16) &&& 0xff,
   (n >>> 8) &&& 0xff, n &&& 0xff]

/-- SHA-256 padding: append `0x80`, zero bytes to 56 mod 64, then the
bit length. -/
def padMessage (m : List Nat) : List Nat :=
  m ++ [0x80] ++ List.replicate ((119 - m.length % 64) % 64) 0
    ++ lenBytes (8 * m.length)

/-- Split a byte list into 64-byte blocks. -/
def chunk64 : List Nat → List (List Nat)
  | [] => []
  | x :: rest => ((x :: rest).take 64) :: chunk64 (rest.drop 63)
termination_by l => l.length
decreasing_by simp [List.length_drop]; omega

/-- Combine bytes into 32-bit big-endian words. -/
def bytesToWords : List Nat → List Nat
  | a :: b :: c :: d :: rest =>
      (a * 2 ^ 24 + b * 2 ^ 16 + c * 2 ^ 8 + d) :: bytesToWords rest
  | _ => []

/-- Extend the 16 block words to the 64-entry message schedule, `k` more
entries to go. -/
def extendSchedule (w : List Nat) : Nat → List Nat
  | 0 => w
  | k + 1 =>
      let i := w.length
      extendSchedule
        (w ++ [w32 (smallSigma1 (w.getD (i - 2) 0) + w.getD (i - 7) 0
                    + smallSigma0 (w.getD (i - 15) 0) + w.getD (i - 16) 0)]) k

/-- One round of the SHA-256 compression function. -/
def compressRound (w : List Nat) (st : List Nat) (i : Nat) : List Nat :=
  match st with
  | [a, b, c, d, e, f, g, h] =>
      let t1 := w32 (h + bigSigma1 e + chooseFn e f g + sha256K.getD i 0 + w.getD i 0)
      let t2 := w32 (bigSigma0 a + majorityFn a b c)
      [w32 (t1 + t2), a, b, c, w32 (d + t1), e, f, g]
  | _ => st

/-- Process one 64-byte block into the running hash. -/
def processBlock (h : List Nat) (block : List Nat) : List Nat :=
  let w := extendSchedule (bytesToWords block) 48
  let st := (List.range 64).foldl (compressRound w) h
  (h.zip st).map (fun p => w32 (p.1 + p.2))

/-- SHA-256 of a byte sequence, as the list of 8 hash words. -/
def sha256Words (msg : List Nat) : List Nat :=
  (chunk64 (padMessage msg)).foldl processBlock sha256H0

/-- Lower-case hex digit. -/
def hexDigit (n : Nat) : Char :=
  if n < 10 then Char.ofNat (48 + n) else Char.ofNat (87 + n)

/-- Eight hex characters of a 32-bit word, big-endian. -/
def wordHexChars (w : Nat) : List Char :=
  [hexDigit ((w >>> 28) &&& 0xf), hexDigit ((w >>> 24) &&& 0xf),
   hexDigit ((w >>> 20) &&& 0xf), hexDigit ((w >>> 16) &&& 0xf),
   hexDigit ((w >>> 12) &&& 0xf), hexDigit ((w >>> 8) &&& 0xf),
   hexDigit ((w >>> 4) &&& 0xf), hexDigit (w &&& 0xf)]

/-- Hex digest string of a byte sequence. -/
def sha256Hex (msg : List Nat) : String :=
  String.mk (((sha256Words msg).map wordHexChars).flatten)

/-- Model of `hash_password` (`src/main.py:74`):
`hashlib.sha256(password.encode()).hexdigest()` over the UTF-8 bytes of
the password. -/
def hash_password (password : String) : String :=
  sha256Hex (password.toUTF8.data.toList.map (fun b => b.toNat))

/-! ### Date validation (model of `datetime.datetime.strptime(_, "%Y-%m-%d")`,
`src/main.py:143`)

CPython's `_strptime` compiles the format into the anchored pattern
`(?P<Y>\d\d\d\d)-(?P<m>1[0-2]|0[1-9]|[1-9])-(?P<d>3[0-1]|[1-2]\d|0[1-9]|[1-9]| [1-9])`
and requires the whole string to match.  `\d` matches any Unicode decimal
digit (category Nd) and `int()` reads their digit values, while the
explicit classes such as `[1-2]` and the literal digits are ASCII; `%d`
additionally accepts a space followed by a nonzero ASCII digit.  The
alternatives of each field have pairwise distinct (first character,
length) signatures and no field pattern can consume the literal `-`
separators, so matching the whole string is equivalent to splitting on
`-` and matching each field against a whole token.  The `datetime`
constructor then checks calendar validity (day within the month's
length, year at least 1). -/

/-- A parsed calendar date. -/
structure Date where
  year : Nat
  month : Nat
  day : Nat
deriving DecidableEq

/-- Split a character list on `-` separators, like `str.split('-')`. -/
def splitDash : List Char → List (List Char)
  | [] => [[]]
  | c :: rest =>
      if c = '-' then [] :: splitDash rest
      else
        match splitDash rest with
        | [] => [[c]]
        | part :: parts => (c :: part) :: parts

/-- Code points of the Unicode decimal digits (category Nd) that carry
digit value 0: every Nd digit is one of these bases plus its value 0–9.
Both `\d` in the compiled strptime pattern and `int()` accept exactly
these digits (table generated from CPython's `unicodedata`). -/
def ndDigitBases : List Nat :=
  [48, 1632, 1776, 1984, 2406, 2534, 2662,
   2790, 2918, 3046, 3174, 3302, 3430, 3558,
   3664, 3792, 3872, 4160, 4240, 6112, 6160,
   6470, 6608, 6784, 6800, 6992, 7088, 7232,
   7248, 42528, 43216, 43264, 43472, 43504, 43600,
   44016, 65296, 66720, 68912, 69734, 69872, 69942,
   70096, 70384, 70736, 70864, 71248, 71360, 71472,
   71904, 72016, 72784, 73040, 73120, 92768, 92864,
   93008, 120782, 120792, 120802, 120812, 120822, 123200,
   123632, 125264, 130032]

/-- Decimal value of a Unicode decimal digit (category Nd), as `\d` and
`int()` understand it; `none` for any other character. -/
def unicodeDigit (c : Char) : Option Nat :=
  match ndDigitBases.find? (fun b => b ≤ c.toNat ∧ c.toNat ≤ b + 9) with
  | some b => some (c.toNat - b)
  | none => none

/-- Parse `%Y` against `\d\d\d\d`: exactly four Unicode decimal digits,
combined with `int()`'s base-10 value. -/
def parseYear (l : List Char) : Option Nat :=
  match l with
  | [a, b, c, d] =>
      match unicodeDigit a, unicodeDigit b, unicodeDigit c,
          unicodeDigit d with
      | some va, some vb, some vc, some vd =>
          some (1000 * va + 100 * vb + 10 * vc + vd)
      | _, _, _, _ => none
  | _ => none

/-- Parse `%m` against `1[0-2]|0[1-9]|[1-9]`: the classes and literals
are ASCII, so a month is one or two ASCII digits with value 1–12 and no
lone or doubled zero. -/
def parseMonth : List Char → Option Nat
  | ['1', c] =>
      if 48 ≤ c.toNat ∧ c.toNat ≤ 50 then some (10 + (c.toNat - 48))
      else none
  | ['0', c] =>
      if 49 ≤ c.toNat ∧ c.toNat ≤ 57 then some (c.toNat - 48) else none
  | [c] =>
      if 49 ≤ c.toNat ∧ c.toNat ≤ 57 then some (c.toNat - 48) else none
  | _ => none

/-- Parse `%d` against `3[0-1]|[1-2]\d|0[1-9]|[1-9]| [1-9]`: the second
character after an ASCII `1` or `2` may be any Unicode decimal digit,
the other classes are ASCII, and a space followed by a nonzero ASCII
digit is also accepted. -/
def parseDay : List Char → Option Nat
  | ['3', c] =>
      if c.toNat = 48 ∨ c.toNat = 49 then some (30 + (c.toNat - 48))
      else none
  | ['1', c] => (unicodeDigit c).map (fun v => 10 + v)
  | ['2', c] => (unicodeDigit c).map (fun v => 20 + v)
  | ['0', c] =>
      if 49 ≤ c.toNat ∧ c.toNat ≤ 57 then some (c.toNat - 48) else none
  | [' ', c] =>
      if 49 ≤ c.toNat ∧ c.toNat ≤ 57 then some (c.toNat - 48) else none
  | [c] =>
      if 49 ≤ c.toNat ∧ c.toNat ≤ 57 then some (c.toNat - 48) else none
  | _ => none

/-- Gregorian leap-year rule (as in `datetime`). -/
def isLeap (y : Nat) : Bool :=
  y % 4 = 0 && (y % 100 ≠ 0 || y % 400 = 0)

/-- Number of days in a month (as in `datetime`). -/
def daysInMonth (y m : Nat) : Nat :=
  if m = 2 then (if isLeap y then 29 else 28)
  else if m = 4 ∨ m = 6 ∨ m = 9 ∨ m = 11 then 30
  else 31

/-- Model of `datetime.datetime.strptime(s, "%Y-%m-%d").date()`: `none`
when `strptime` raises `ValueError`, otherwise the parsed date.  The
string must split on `-` into exactly a `%Y`, a `%m` and a `%d` token
(see the section comment for why token-wise matching is equivalent to
the anchored regex), and the `datetime` constructor must accept the
parsed values: day within the month's length, year at least 1. -/
def parseDate (s : String) : Option Date :=
  match splitDash s.data with
  | [ys, ms, ds] =>
      match parseYear ys, parseMonth ms, parseDay ds with
      | some y, some m, some d =>
          if 1 ≤ y ∧ d ≤ daysInMonth y m then some ⟨y, m, d⟩
          else none
      | _, _, _ => none
  | _ => none

/-- Zero-padded two-digit rendering (`datetime.date.isoformat`). -/
def pad2 (n : Nat) : String :=
  if n < 10 then "0" ++ toString n else toString n

/-- Zero-padded four-digit rendering (`datetime.date.isoformat`). -/
def pad4 (n : Nat) : String :=
  if n < 10 then "000" ++ toString n
  else if n < 100 then "00" ++ toString n
  else if n < 1000 then "0" ++ toString n
  else toString n

/-- ISO rendering of a date, as SQLite stores the `datetime.date` value
bound in the INSERT (`src/main.py:147`). -/
def formatDate (d : Date) : String :=
  pad4 d.year ++ "-" ++ pad2 d.month ++ "-" ++ pad2 d.day

/-! ### Data model (`src/main.py:55`–`101`)

Pydantic request models and table rows.  `REAL` columns are modelled as
`ℚ`.  Auto-increment ids are modelled by per-table `next*Id` counters. -/

/-- A `users` table row: `email TEXT PRIMARY KEY, password TEXT` holding
the password hash. -/
structure UserRow where
  email : String
  password : String
deriving DecidableEq

/-- Request body of `/register` and `/login` (`UserRegister`/`UserLogin`
have the same fields). -/
structure UserRegister where
  email : String
  password : String
deriving DecidableEq

/-- Request body of `POST /expenses/` (pydantic `Expense`). -/
structure Expense where
  description : String
  amount : ℚ
  category : String
  date : String
deriving DecidableEq

/-- An `expenses` table row / response model `ExpenseInDB`. -/
structure ExpenseInDB where
  id : Nat
  description : String
  amount : ℚ
  category : String
  date : String
deriving DecidableEq

/-- Request body of goal routes (pydantic `Goal`): all three fields are
required and non-nullable, so none of them can be `None` after
validation. -/
structure Goal where
  description : String
  amount : ℚ
  progress : ℚ
deriving DecidableEq

/-- A `goals` table row / response model `GoalInDB`. -/
structure GoalInDB where
  id : Nat
  description : String
  amount : ℚ
  progress : ℚ
deriving DecidableEq

/-- A raw goal-update JSON body before pydantic validation: each field
may be absent. -/
structure RawGoal where
  description : Option String
  amount : Option ℚ
  progress : Option ℚ
deriving DecidableEq

/-- Pydantic validation of the `Goal` model: every field is required
(no default, not `Optional`), so validation fails when any is absent. -/
def validateGoal (raw : RawGoal) : Option Goal :=
  match raw.description, raw.amount, raw.progress with
  | some d, some a, some p => some ⟨d, a, p⟩
  | _, _, _ => none

/-- The persistent store: the three SQLite tables, rows in insertion
(rowid) order, plus the auto-increment counters. -/
structure DB where
  users : List UserRow
  expenses : List ExpenseInDB
  nextExpenseId : Nat
  goals : List GoalInDB
  nextGoalId : Nat
deriving DecidableEq

/-- A raised `HTTPException`. -/
structure HTTPError where
  status : Nat
  detail : String
deriving DecidableEq

/-! ### Handlers (`src/main.py:103`–`261`)

Each handler is a pure function of the store and the request.  A raised
`HTTPException` is the `Except.error` case, in which the store is
unchanged (the code raises before committing). -/

/-- Model of `verify_token` (`src/main.py:32`): the external Firebase
verifier is a parameter returning the decoded claim on success; any
failure becomes a 401. -/
def verify_token {κ : Type} (verifier : String → Option κ) (token : String) :
    Except HTTPError κ :=
  match verifier token with
  | some decoded_token => .ok decoded_token
  | none => .error ⟨401, "Invalid or expired token"⟩

/-- Model of a gated route (`Depends(verify_token)`): the handler body
runs only when token verification succeeds, and receives the decoded
claim. -/
def gatedRoute {κ α : Type} (verifier : String → Option κ) (token : String)
    (handler : κ → DB → Except HTTPError (DB × α)) (db : DB) :
    Except HTTPError (DB × α) :=
  match verify_token verifier token with
  | .error e => .error e
  | .ok claim => handler claim db

/-- Model of `register_user` (`src/main.py:108`): hash the password and
insert `(email, hash)`; a duplicate email violates the primary key and
becomes a 400. -/
def register_user (db : DB) (user : UserRegister) :
    Except HTTPError (DB × String) :=
  let hashed_password := hash_password user.password
  if db.users.any (fun u => u.email = user.email) then
    .error ⟨400, "Email already registered"⟩
  else
    .ok ({ db with users := db.users ++ [⟨user.email, hashed_password⟩] },
         "User registered successfully")

/-- Model of `login_user` (`src/main.py:123`): look up the stored hash by
email and compare with the hash of the supplied password. -/
def login_user (db : DB) (user : UserRegister) : Except HTTPError String :=
  match db.users.find? (fun u => u.email = user.email) with
  | some record =>
      if record.password = hash_password user.password then
        .ok "Login successful"
      else .error ⟨401, "Invalid credentials"⟩
  | none => .error ⟨401, "Invalid credentials"⟩

/-- Model of `add_expense` (`src/main.py:136`): validate the date with
`strptime`, else 400; on success insert the row (the bound value is the
parsed `datetime.date`, stored in its ISO form) and return the submitted
record with the assigned id. -/
def add_expense (db : DB) (expense : Expense) :
    Except HTTPError (DB × ExpenseInDB) :=
  match parseDate expense.date with
  | none => .error ⟨400, "Invalid date format. Use YYYY-MM-DD"⟩
  | some formatted_date =>
      let expense_id := db.nextExpenseId
      .ok ({ db with
               expenses := db.expenses ++
                 [⟨expense_id, expense.description, expense.amount,
                   expense.category, formatDate formatted_date⟩],
               nextExpenseId := expense_id + 1 },
           ⟨expense_id, expense.description, expense.amount,
            expense.category, expense.date⟩)

/-- Strict lexicographic order on character lists, comparing code
points, as SQLite's `memcmp`-based TEXT ordering compares the dates. -/
def strLtB : List Char → List Char → Bool
  | [], [] => false
  | [], _ :: _ => true
  | _ :: _, [] => false
  | a :: as, b :: bs => if a = b then strLtB as bs else decide (a.toNat < b.toNat)

/-- Strict `ORDER BY`-ordering on the TEXT `date` column. -/
def dateLt (a b : String) : Prop := strLtB a.data b.data = true

instance : DecidableRel dateLt := fun a b => by
  unfold dateLt; infer_instance

/-- Ordering used to model `SELECT * FROM expenses ORDER BY date ASC`:
rows are scanned in rowid (insertion) order and sorted by date, modelled
as the stable (date, id) lexicographic order. -/
def expenseLE (a b : ExpenseInDB) : Prop :=
  dateLt a.date b.date ∨ (a.date = b.date ∧ a.id ≤ b.id)

instance : DecidableRel expenseLE := fun a b => by
  unfold expenseLE; infer_instance

/-- Model of `get_expenses` (`src/main.py:155`): all rows ordered by date
ascending. -/
def get_expenses (db : DB) : List ExpenseInDB :=
  List.insertionSort expenseLE db.expenses

/-- Model of `delete_expense` (`src/main.py:165`): delete any row with
the id and return a success message unconditionally. -/
def delete_expense (db : DB) (expense_id : Nat) : DB × String :=
  ({ db with expenses := db.expenses.filter (fun e => e.id ≠ expense_id) },
   "Expense " ++ toString expense_id ++ " deleted successfully")

/-- One step of the `defaultdict(float)` accumulation in
`get_expenses_graph`: add `a` to the entry for date `d`, inserting the
new key at the end (Python dicts preserve key insertion order). -/
def addAmount : List (String × ℚ) → String → ℚ → List (String × ℚ)
  | [], d, a => [(d, a)]
  | (k, v) :: rest, d, a =>
      if k = d then (k, v + a) :: rest else (k, v) :: addAmount rest d a

/-- Lookup in the accumulated per-date dictionary, with the
`defaultdict(float)` default of 0 for a missing key. -/
def lookupAmt : List (String × ℚ) → String → ℚ
  | [], _ => 0
  | (k, v) :: rest, d => if k = d then v else lookupAmt rest d

/-- Model of `get_expenses_graph` (`src/main.py:175`): scan rows ordered
by date ascending and accumulate per-date totals in a
`defaultdict(float)`, returning `(date, total)` pairs in key insertion
order. -/
def get_expenses_graph (db : DB) : List (String × ℚ) :=
  (List.insertionSort expenseLE db.expenses).foldl
    (fun acc e => addAmount acc e.date e.amount) []

/-- Model of `create_goal` (`src/main.py:189`): insert unconditionally
and return the record with its assigned id. -/
def create_goal (db : DB) (goal : Goal) : DB × GoalInDB :=
  let goal_id := db.nextGoalId
  ({ db with
       goals := db.goals ++
         [⟨goal_id, goal.description, goal.amount, goal.progress⟩],
       nextGoalId := goal_id + 1 },
   ⟨goal_id, goal.description, goal.amount, goal.progress⟩)

/-- Model of `get_goals` (`src/main.py:206`): all goal rows (no ORDER BY,
rowid scan order). -/
def get_goals (db : DB) : List GoalInDB :=
  db.goals

/-- Model of `update_goal` (`src/main.py:220`): 404 when no row has the
id; otherwise merge with Python truthiness — an empty `description` or a
zero `amount` keeps the stored value, while `progress` is guarded only by
`is not None`, which always holds since pydantic `Goal.progress` is a
required float, modelled by matching on `some goal.progress`. -/
def update_goal (db : DB) (goal_id : Nat) (goal : Goal) :
    Except HTTPError (DB × GoalInDB) :=
  match db.goals.find? (fun g => g.id = goal_id) with
  | none => .error ⟨404, "Goal not found"⟩
  | some existing_goal =>
      let updated_description :=
        if goal.description ≠ "" then goal.description
        else existing_goal.description
      let updated_amount :=
        if goal.amount ≠ 0 then goal.amount else existing_goal.amount
      let updated_progress :=
        match (some goal.progress : Option ℚ) with
        | some p => p
        | none => existing_goal.progress
      let updated : GoalInDB :=
        ⟨goal_id, updated_description, updated_amount, updated_progress⟩
      .ok ({ db with
               goals := db.goals.map
                 (fun g => if g.id = goal_id then updated else g) },
           updated)

/-- Model of `delete_goal` (`src/main.py:248`): delete rows with the id;
404 when the DELETE affected no row (`cursor.rowcount == 0`). -/
def delete_goal (db : DB) (goal_id : Nat) : Except HTTPError (DB × String) :=
  let remaining := db.goals.filter (fun g => g.id ≠ goal_id)
  if remaining.length = db.goals.length then
    .error ⟨404, "Goal not found"⟩
  else
    .ok ({ db with goals := remaining }, "Goal deleted successfully")

deriving instance DecidableEq for Except

end PennyWise

namespace PennyWise

example : parseDate "2024-13-01" = none := by decide
example : parseDate "2024-01-05" = some ⟨2024, 1, 5⟩ := by decide
example : parseDate "２０２４-01-05" = some ⟨2024, 1, 5⟩ := by decide
example : parseDate "2024-01-1٢" = some ⟨2024, 1, 12⟩ := by decide
example : parseDate "2024-01- 5" = some ⟨2024, 1, 5⟩ := by decide
example : parseDate "2024-０1-05" = none := by decide
example : parseDate "2024-01-１2" = none := by decide
example : formatDate ⟨2024, 1, 5⟩ = "2024-01-05" := by decide
example : update_goal ⟨[], [], 1, [⟨1, "Save", 100, 50⟩], 2⟩ 1 ⟨"", 0, 0⟩ =
    .ok (⟨[], [], 1, [⟨1, "Save", 100, 0⟩], 2⟩, ⟨1, "Save", 100, 0⟩) := by
  decide
example : get_expenses_graph
    ⟨[], [⟨1, "a", 10, "c", "2024-01-01"⟩, ⟨2, "b", 5, "c", "2024-01-01"⟩,
      ⟨3, "c", 2, "c", "2024-01-02"⟩], 4, [], 1⟩ =
    [("2024-01-01", 15), ("2024-01-02", 2)] := by
  simp +decide [get_expenses_graph, List.insertionSort, List.orderedInsert,
    addAmount]
  norm_num
example : (delete_expense ⟨[], [], 1, [], 1⟩ 5).2 =
    "Expense 5 deleted successfully" := by decide

/-! ### Helper lemmas -/

theorem compressRound_length (w st : List Nat) (i : Nat) :
    (compressRound w st i).length = st.length := by
  unfold compressRound
  split
  · simp
  · rfl

theorem foldl_compressRound_length (w : List Nat) (l : List Nat)
    (st : List Nat) : (l.foldl (compressRound w) st).length = st.length := by
  induction l generalizing st with
  | nil => rfl
  | cons i rest ih =>
      rw [List.foldl_cons, ih, compressRound_length]

theorem processBlock_length (h b : List Nat) :
    (processBlock h b).length = h.length := by
  unfold processBlock
  simp [foldl_compressRound_length]

theorem sha256Words_length (m : List Nat) : (sha256Words m).length = 8 := by
  have key : ∀ (bs : List (List Nat)) (h : List Nat),
      (bs.foldl processBlock h).length = h.length := by
    intro bs
    induction bs with
    | nil => intro h; rfl
    | cons b rest ih =>
        intro h
        rw [List.foldl_cons, ih, processBlock_length]
  unfold sha256Words
  rw [key]
  rfl

theorem hash_password_length (s : String) : (hash_password s).length = 64 := by
  have key : ∀ ws : List Nat,
      ((ws.map wordHexChars).flatten).length = 8 * ws.length := by
    intro ws
    induction ws with
    | nil => rfl
    | cons w rest ih =>
        have hw : (wordHexChars w).length = 8 := rfl
        simp only [List.map_cons, List.flatten_cons, List.length_append, hw,
          ih, List.length_cons]
        omega
  unfold hash_password sha256Hex
  show (((sha256Words _).map wordHexChars).flatten).length = 64
  rw [key, sha256Words_length]

theorem register_user_dup (db : DB) (u : UserRegister)
    (h : ∃ x ∈ db.users, x.email = u.email) :
    register_user db u = .error ⟨400, "Email already registered"⟩ := by
  unfold register_user
  rw [if_pos]
  obtain ⟨x, hx, he⟩ := h
  exact List.any_eq_true.mpr ⟨x, hx, by simp [he]⟩

theorem register_user_fresh (db : DB) (u : UserRegister)
    (h : ∀ x ∈ db.users, x.email ≠ u.email) :
    register_user db u =
      .ok ({ db with users :=
               db.users ++ [⟨u.email, hash_password u.password⟩] },
           "User registered successfully") := by
  unfold register_user
  rw [if_neg]
  intro hc
  obtain ⟨x, hx, he⟩ := List.any_eq_true.mp hc
  exact h x hx (by simpa using he)

/-! ### Claim theorems -/

/-- C5: a registration whose email already exists fails with the 400
duplicate error and performs no insert (the store is returned unchanged to
the caller, so the existing user's stored hash is untouched), while a
fresh email inserts `(email, hash password)` and returns only a
confirmation message. -/
theorem register_conflict_policy (db : DB) (u : UserRegister) :
    ((∃ x ∈ db.users, x.email = u.email) →
      register_user db u = .error ⟨400, "Email already registered"⟩) ∧
    ((∀ x ∈ db.users, x.email ≠ u.email) →
      register_user db u =
        .ok ({ db with users :=
                 db.users ++ [⟨u.email, hash_password u.password⟩] },
             "User registered successfully")) :=
  ⟨register_user_dup db u, register_user_fresh db u⟩

/-- Witness for C5: registering `a@x.com` against a store already holding
that email fails with the duplicate error; registering it against the
empty store appends `(email, hash)` and succeeds. -/
theorem register_conflict_policy_witness :
    ((∃ x ∈ ([⟨"a@x.com", "h"⟩] : List UserRow), x.email = "a@x.com") ∧
      register_user ⟨[⟨"a@x.com", "h"⟩], [], 1, [], 1⟩ ⟨"a@x.com", "pw"⟩ =
        .error ⟨400, "Email already registered"⟩) ∧
    register_user ⟨[], [], 1, [], 1⟩ ⟨"a@x.com", "pw"⟩ =
      .ok (⟨[⟨"a@x.com", hash_password "pw"⟩], [], 1, [], 1⟩,
           "User registered successfully") := by
  refine ⟨⟨⟨⟨"a@x.com", "h"⟩, by simp, rfl⟩, ?_⟩, ?_⟩
  · exact (register_conflict_policy ⟨[⟨"a@x.com", "h"⟩], [], 1, [], 1⟩
      ⟨"a@x.com", "pw"⟩).1 ⟨⟨"a@x.com", "h"⟩, by simp, rfl⟩
  · exact (register_conflict_policy ⟨[], [], 1, [], 1⟩ ⟨"a@x.com", "pw"⟩).2
      (by simp)

/-- C9: the password hashing function is deterministic and always
produces a 64-character digest, and successful registration stores that
digest (not the plaintext) alongside the email. -/
theorem hash_password_contract :
    (∀ s t : String, s = t → hash_password s = hash_password t) ∧
    (∀ s : String, (hash_password s).length = 64) ∧
    (∀ (db : DB) (u : UserRegister), (∀ x ∈ db.users, x.email ≠ u.email) →
      register_user db u =
        .ok ({ db with users :=
                 db.users ++ [⟨u.email, hash_password u.password⟩] },
             "User registered successfully")) :=
  ⟨fun _ _ h => by rw [h], hash_password_length, register_user_fresh⟩

/-- Witness for C9 at the password `"pw"` and the empty store. -/
theorem hash_password_contract_witness :
    hash_password "pw" = hash_password "pw" ∧
    (hash_password "pw").length = 64 ∧
    register_user ⟨[], [], 1, [], 1⟩ ⟨"a@x.com", "pw"⟩ =
      .ok (⟨[⟨"a@x.com", hash_password "pw"⟩], [], 1, [], 1⟩,
           "User registered successfully") :=
  ⟨hash_password_contract.1 "pw" "pw" rfl,
   hash_password_contract.2.1 "pw",
   hash_password_contract.2.2 ⟨[], [], 1, [], 1⟩ ⟨"a@x.com", "pw"⟩ (by simp)⟩

theorem login_user_of_find_none (db : DB) (u : UserRegister)
    (h : db.users.find? (fun x => x.email = u.email) = none) :
    login_user db u = .error ⟨401, "Invalid credentials"⟩ := by
  unfold login_user
  rw [h]

theorem login_user_of_find_some (db : DB) (u : UserRegister) (r : UserRow)
    (h : db.users.find? (fun x => x.email = u.email) = some r) :
    login_user db u =
      if r.password = hash_password u.password then .ok "Login successful"
      else .error ⟨401, "Invalid credentials"⟩ := by
  unfold login_user
  rw [h]

/-- C6: login succeeds exactly when the email is found and the stored
hash equals the hash of the supplied password; an unknown-email failure
and a wrong-password failure produce the very same error value (status
and detail), leaking nothing about which check failed. -/
theorem login_no_leak (db : DB) :
    (∀ u : UserRegister,
      login_user db u = .ok "Login successful" ↔
        ∃ r, db.users.find? (fun x => x.email = u.email) = some r ∧
          r.password = hash_password u.password) ∧
    (∀ u1 u2 : UserRegister, ∀ r2 : UserRow,
      db.users.find? (fun x => x.email = u1.email) = none →
      db.users.find? (fun x => x.email = u2.email) = some r2 →
      r2.password ≠ hash_password u2.password →
      login_user db u1 = login_user db u2 ∧
        login_user db u1 = .error ⟨401, "Invalid credentials"⟩) := by
  constructor
  · intro u
    constructor
    · intro h
      cases hf : db.users.find? (fun x => x.email = u.email) with
      | none =>
          rw [login_user_of_find_none db u hf] at h
          exact absurd h (by simp)
      | some r =>
          rw [login_user_of_find_some db u r hf] at h
          by_cases hp : r.password = hash_password u.password
          · exact ⟨r, rfl, hp⟩
          · rw [if_neg hp] at h
            exact absurd h (by simp)
    · rintro ⟨r, hf, hp⟩
      rw [login_user_of_find_some db u r hf, if_pos hp]
  · intro u1 u2 r2 h1 h2 hp
    rw [login_user_of_find_none db u1 h1,
      login_user_of_find_some db u2 r2 h2, if_neg hp]
    exact ⟨rfl, rfl⟩

/-- Witness for C6: against a store holding one user with hash `"x"`,
the unknown-email login `b@x.com` and the known-email wrong-password
login `a@x.com`/`pw` return the identical 401 error ("x" cannot be a
digest, having length 1, not 64). -/
theorem login_no_leak_witness :
    login_user ⟨[⟨"a@x.com", "x"⟩], [], 1, [], 1⟩ ⟨"b@x.com", "pw"⟩ =
      login_user ⟨[⟨"a@x.com", "x"⟩], [], 1, [], 1⟩ ⟨"a@x.com", "pw"⟩ ∧
    login_user ⟨[⟨"a@x.com", "x"⟩], [], 1, [], 1⟩ ⟨"b@x.com", "pw"⟩ =
      .error ⟨401, "Invalid credentials"⟩ :=
  (login_no_leak ⟨[⟨"a@x.com", "x"⟩], [], 1, [], 1⟩).2
    ⟨"b@x.com", "pw"⟩ ⟨"a@x.com", "pw"⟩ ⟨"a@x.com", "x"⟩
    (by decide) (by decide)
    (fun h => by
      have hl := hash_password_length "pw"
      rw [← h] at hl
      exact absurd hl (by decide))

theorem update_goal_notfound (db : DB) (gid : Nat) (g : Goal)
    (h : db.goals.find? (fun x => x.id = gid) = none) :
    update_goal db gid g = .error ⟨404, "Goal not found"⟩ := by
  unfold update_goal
  rw [h]

theorem update_goal_found (db : DB) (gid : Nat) (g : Goal) (old : GoalInDB)
    (h : db.goals.find? (fun x => x.id = gid) = some old) :
    update_goal db gid g = .ok
      ({ db with goals := db.goals.map (fun x => if x.id = gid then
            ⟨gid, if g.description ≠ "" then g.description
                  else old.description,
                  if g.amount ≠ 0 then g.amount else old.amount,
                  g.progress⟩ else x) },
       ⟨gid, if g.description ≠ "" then g.description else old.description,
             if g.amount ≠ 0 then g.amount else old.amount,
             g.progress⟩) := by
  unfold update_goal
  rw [h]

/-- C1: a goal update that finds its goal keeps the stored description
when the incoming one is falsy (the empty string) and the stored amount
when the incoming one is falsy (zero), while progress is always replaced
by the incoming value, even when that value is 0 — in both the stored row
and the returned record. -/
theorem update_goal_partial_merge (db : DB) (gid : Nat) (g : Goal)
    (old : GoalInDB) (h : db.goals.find? (fun x => x.id = gid) = some old) :
    update_goal db gid g = .ok
      ({ db with goals := db.goals.map (fun x => if x.id = gid then
            ⟨gid, if g.description ≠ "" then g.description
                  else old.description,
                  if g.amount ≠ 0 then g.amount else old.amount,
                  g.progress⟩ else x) },
       ⟨gid, if g.description ≠ "" then g.description else old.description,
             if g.amount ≠ 0 then g.amount else old.amount,
             g.progress⟩) :=
  update_goal_found db gid g old h

/-- Witness for C1, the spec's own example: updating goal
`{description:"Save", amount:100, progress:50}` with
`{description:"", amount:0, progress:0}` stores and returns
`{description:"Save", amount:100, progress:0}`. -/
theorem update_goal_partial_merge_witness :
    ((⟨[], [], 1, [⟨1, "Save", 100, 50⟩], 2⟩ : DB).goals.find?
        (fun x => x.id = 1) = some ⟨1, "Save", 100, 50⟩) ∧
    update_goal ⟨[], [], 1, [⟨1, "Save", 100, 50⟩], 2⟩ 1 ⟨"", 0, 0⟩ =
      .ok (⟨[], [], 1, [⟨1, "Save", 100, 0⟩], 2⟩, ⟨1, "Save", 100, 0⟩) := by
  refine ⟨by decide, ?_⟩
  have h := update_goal_partial_merge ⟨[], [], 1, [⟨1, "Save", 100, 50⟩], 2⟩
    1 ⟨"", 0, 0⟩ ⟨1, "Save", 100, 50⟩ (by decide)
  simpa using h

/-- C10: pydantic validation of the goal-update body requires all three
fields, so a validated request always carries a present `progress`; and
whenever `update_goal` succeeds, the returned record and the stored row
with the updated id have exactly the incoming progress (the
retain-stored-progress branch is unreachable). -/
theorem goal_progress_always_overwritten :
    (∀ (raw : RawGoal) (g : Goal),
      validateGoal raw = some g → raw.progress = some g.progress) ∧
    (∀ (raw : RawGoal), raw.progress = none → validateGoal raw = none) ∧
    (∀ (db : DB) (gid : Nat) (g : Goal) (db' : DB) (ret : GoalInDB),
      update_goal db gid g = .ok (db', ret) →
      ret.progress = g.progress ∧
        ∀ x ∈ db'.goals, x.id = gid → x.progress = g.progress) := by
  refine ⟨?_, ?_, ?_⟩
  · intro raw g h
    unfold validateGoal at h
    rcases raw with ⟨od, oa, op⟩
    cases od <;> cases oa <;> cases op <;> simp_all
    rw [← h]
  · intro raw h
    unfold validateGoal
    rcases raw with ⟨od, oa, op⟩
    cases h
    cases od <;> cases oa <;> rfl
  · intro db gid g db' ret h
    cases hf : db.goals.find? (fun x => x.id = gid) with
    | none =>
        rw [update_goal_notfound db gid g hf] at h
        exact absurd h (by simp)
    | some old =>
        rw [update_goal_found db gid g old hf] at h
        rw [Except.ok.injEq, Prod.mk.injEq] at h
        obtain ⟨hdb, hret⟩ := h
        constructor
        · rw [← hret]
        · intro x hx hid
          rw [← hdb] at hx
          simp only [List.mem_map] at hx
          obtain ⟨y, _, hxy⟩ := hx
          by_cases hy : y.id = gid
          · rw [if_pos hy] at hxy
            rw [← hxy]
          · rw [if_neg hy] at hxy
            rw [← hxy] at hid
            exact absurd hid hy

/-- Witness for C10: a validated raw body has its progress taken over,
and a concrete successful update stores and returns progress 0. -/
theorem goal_progress_always_overwritten_witness :
    (some (0 : ℚ) = some (0 : ℚ)) ∧
    ((⟨1, "g", 5, 0⟩ : GoalInDB).progress = (0 : ℚ) ∧
      ∀ x ∈ [(⟨1, "g", 5, 0⟩ : GoalInDB)], x.id = 1 →
        x.progress = (0 : ℚ)) := by
  constructor
  · exact goal_progress_always_overwritten.1 ⟨some "g", some 5, some 0⟩
      ⟨"g", 5, 0⟩ (by rfl)
  · exact goal_progress_always_overwritten.2.2
      ⟨[], [], 1, [⟨1, "g", 5, 3⟩], 2⟩ 1 ⟨"g", 5, 0⟩
      ⟨[], [], 1, [⟨1, "g", 5, 0⟩], 2⟩ ⟨1, "g", 5, 0⟩ (by decide)

theorem add_expense_invalid (db : DB) (e : Expense)
    (h : parseDate e.date = none) :
    add_expense db e = .error ⟨400, "Invalid date format. Use YYYY-MM-DD"⟩ := by
  unfold add_expense
  rw [h]

theorem add_expense_valid (db : DB) (e : Expense) (fd : Date)
    (h : parseDate e.date = some fd) :
    add_expense db e = .ok
      ({ db with
           expenses := db.expenses ++
             [⟨db.nextExpenseId, e.description, e.amount, e.category,
               formatDate fd⟩],
           nextExpenseId := db.nextExpenseId + 1 },
       ⟨db.nextExpenseId, e.description, e.amount, e.category, e.date⟩) := by
  unfold add_expense
  rw [h]

/-- C2: adding an expense fails with the 400 bad-format error, inserting
nothing, exactly when the date does not parse as a `YYYY-MM-DD` calendar
date; otherwise it appends exactly one row and returns the submitted
record with the newly assigned id. -/
theorem add_expense_validation (db : DB) (e : Expense) :
    (parseDate e.date = none →
      add_expense db e =
        .error ⟨400, "Invalid date format. Use YYYY-MM-DD"⟩) ∧
    (∀ fd, parseDate e.date = some fd →
      add_expense db e = .ok
        ({ db with
             expenses := db.expenses ++
               [⟨db.nextExpenseId, e.description, e.amount, e.category,
                 formatDate fd⟩],
             nextExpenseId := db.nextExpenseId + 1 },
         ⟨db.nextExpenseId, e.description, e.amount, e.category,
          e.date⟩)) ∧
    ((∃ err, add_expense db e = .error err) ↔ parseDate e.date = none) := by
  refine ⟨add_expense_invalid db e, fun fd h => add_expense_valid db e fd h,
    ?_, fun h => ⟨_, add_expense_invalid db e h⟩⟩
  rintro ⟨err, herr⟩
  cases hp : parseDate e.date with
  | none => rfl
  | some fd =>
      rw [add_expense_valid db e fd hp] at herr
      exact absurd herr (by simp)

/-- Witness for C2: the spec's invalid month `"2024-13-01"` is rejected
with the 400 error, and a valid `"2024-01-05"` request inserts one row
and echoes the submitted record with id 1. -/
theorem add_expense_validation_witness :
    parseDate "2024-13-01" = none ∧
    add_expense ⟨[], [], 1, [], 1⟩ ⟨"x", 3, "food", "2024-13-01"⟩ =
      .error ⟨400, "Invalid date format. Use YYYY-MM-DD"⟩ ∧
    parseDate "2024-01-05" = some ⟨2024, 1, 5⟩ ∧
    add_expense ⟨[], [], 1, [], 1⟩ ⟨"x", 3, "food", "2024-01-05"⟩ =
      .ok (⟨[], [⟨1, "x", 3, "food", "2024-01-05"⟩], 2, [], 1⟩,
           ⟨1, "x", 3, "food", "2024-01-05"⟩) ∧
    parseDate "2024-01-1٢" = some ⟨2024, 1, 12⟩ ∧
    add_expense ⟨[], [], 1, [], 1⟩ ⟨"x", 3, "food", "2024-01-1٢"⟩ =
      .ok (⟨[], [⟨1, "x", 3, "food", "2024-01-12"⟩], 2, [], 1⟩,
           ⟨1, "x", 3, "food", "2024-01-1٢"⟩) := by
  refine ⟨by decide, ?_, by decide, ?_, by decide, ?_⟩
  · exact (add_expense_validation ⟨[], [], 1, [], 1⟩
      ⟨"x", 3, "food", "2024-13-01"⟩).1 (by decide)
  · have h := (add_expense_validation ⟨[], [], 1, [], 1⟩
      ⟨"x", 3, "food", "2024-01-05"⟩).2.1 ⟨2024, 1, 5⟩ (by decide)
    have hfd : formatDate ⟨2024, 1, 5⟩ = "2024-01-05" := by decide
    rw [hfd] at h
    simpa using h
  · have h := (add_expense_validation ⟨[], [], 1, [], 1⟩
      ⟨"x", 3, "food", "2024-01-1٢"⟩).2.1 ⟨2024, 1, 12⟩ (by decide)
    have hfd : formatDate ⟨2024, 1, 12⟩ = "2024-01-12" := by decide
    rw [hfd] at h
    simpa using h

theorem length_filter_eq_length_iff {α : Type} (p : α → Bool) (l : List α) :
    (l.filter p).length = l.length ↔ ∀ a ∈ l, p a = true := by
  constructor
  · intro h
    exact List.filter_eq_self.mp ((List.filter_sublist l).eq_of_length h)
  · intro h
    rw [List.filter_eq_self.mpr h]

/-- C4: deleting an expense returns the success message for every id,
with no existence check (a missing id leaves the store unchanged and
still reports success), whereas deleting a goal fails with the 404
not-found error exactly when no stored goal has the id, and succeeds
exactly when one does. -/
theorem delete_asymmetry (db : DB) (idv : Nat) :
    (delete_expense db idv).2 =
      "Expense " ++ toString idv ++ " deleted successfully" ∧
    (delete_expense db idv).1 =
      { db with expenses := db.expenses.filter (fun e => e.id ≠ idv) } ∧
    ((∀ e ∈ db.expenses, e.id ≠ idv) → (delete_expense db idv).1 = db) ∧
    (delete_goal db idv = .error ⟨404, "Goal not found"⟩ ↔
      ∀ g ∈ db.goals, g.id ≠ idv) ∧
    ((∃ r, delete_goal db idv = .ok r) ↔ ∃ g ∈ db.goals, g.id = idv) := by
  refine ⟨rfl, rfl, ?_, ?_, ?_⟩
  · intro h
    show { db with
        expenses := db.expenses.filter (fun e => e.id ≠ idv) } = db
    rw [List.filter_eq_self.mpr (fun e he => decide_eq_true (h e he))]
  · unfold delete_goal
    by_cases hlen : (db.goals.filter (fun g => g.id ≠ idv)).length =
        db.goals.length
    · rw [if_pos hlen]
      constructor
      · intro _ g hg
        exact of_decide_eq_true
          ((length_filter_eq_length_iff _ _).mp hlen g hg)
      · intro _
        rfl
    · rw [if_neg hlen]
      constructor
      · intro h
        exact absurd h (by simp)
      · intro h
        exact absurd ((length_filter_eq_length_iff _ _).mpr
          (fun g hg => decide_eq_true (h g hg))) hlen
  · unfold delete_goal
    by_cases hlen : (db.goals.filter (fun g => g.id ≠ idv)).length =
        db.goals.length
    · rw [if_pos hlen]
      constructor
      · rintro ⟨r, hr⟩
        exact absurd hr (by simp)
      · rintro ⟨g, hg, hid⟩
        have hlt : (db.goals.filter (fun g => g.id ≠ idv)).length <
            db.goals.length :=
          List.length_filter_lt_length_iff_exists.mpr
            ⟨g, hg, by simp [hid]⟩
        omega
    · rw [if_neg hlen]
      constructor
      · intro _
        have hlt : (db.goals.filter (fun g => g.id ≠ idv)).length <
            db.goals.length :=
          Nat.lt_of_le_of_ne (List.length_filter_le _ _) hlen
        obtain ⟨g, hg, hp⟩ :=
          List.length_filter_lt_length_iff_exists.mp hlt
        exact ⟨g, hg, by simpa using hp⟩
      · intro _
        exact ⟨_, rfl⟩

/-- Witness for C4: on a store with no expenses and no goals, deleting
expense 5 reports success and changes nothing, while deleting goal 5
returns the 404 error. -/
theorem delete_asymmetry_witness :
    (delete_expense ⟨[], [], 1, [], 1⟩ 5).2 =
      "Expense 5 deleted successfully" ∧
    (delete_expense ⟨[], [], 1, [], 1⟩ 5).1 = ⟨[], [], 1, [], 1⟩ ∧
    delete_goal ⟨[], [], 1, [], 1⟩ 5 = .error ⟨404, "Goal not found"⟩ := by
  refine ⟨?_, ?_, ?_⟩
  · have h := (delete_asymmetry ⟨[], [], 1, [], 1⟩ 5).1
    simpa using h
  · exact (delete_asymmetry ⟨[], [], 1, [], 1⟩ 5).2.2.1 (by simp)
  · exact (delete_asymmetry ⟨[], [], 1, [], 1⟩ 5).2.2.2.1.mpr (by simp)

theorem verify_token_fail {κ : Type} (verifier : String → Option κ)
    (token : String) (h : verifier token = none) :
    verify_token verifier token = .error ⟨401, "Invalid or expired token"⟩ := by
  unfold verify_token
  rw [h]

theorem verify_token_success {κ : Type} (verifier : String → Option κ)
    (token : String) (c : κ) (h : verifier token = some c) :
    verify_token verifier token = .ok c := by
  unfold verify_token
  rw [h]

/-- C8: when the external verifier fails on the token, a gated request
returns the 401 error and no handler logic runs — the result is the same
for every handler and carries no store change; when verification
succeeds, the decoded claim is passed to the handler. -/
theorem gated_route_spec {κ α : Type} (verifier : String → Option κ)
    (token : String) (handler : κ → DB → Except HTTPError (DB × α))
    (db : DB) :
    (verifier token = none →
      gatedRoute verifier token handler db =
        .error ⟨401, "Invalid or expired token"⟩ ∧
      ∀ handler2 : κ → DB → Except HTTPError (DB × α),
        gatedRoute verifier token handler db =
          gatedRoute verifier token handler2 db) ∧
    (∀ c, verifier token = some c →
      gatedRoute verifier token handler db = handler c db) := by
  constructor
  · intro h
    have hv := verify_token_fail verifier token h
    constructor
    · unfold gatedRoute
      rw [hv]
    · intro handler2
      unfold gatedRoute
      rw [hv]
  · intro c h
    have hv := verify_token_success verifier token c h
    unfold gatedRoute
    rw [hv]

/-- Witness for C8: a verifier rejecting every token makes the gated
route answer 401 independently of the handler, and a verifier accepting
with claim 7 hands 7 to the handler. -/
theorem gated_route_spec_witness :
    (gatedRoute (fun _ => (none : Option Nat)) "t"
        (fun _ db => .ok (db, "ok")) ⟨[], [], 1, [], 1⟩ =
      .error ⟨401, "Invalid or expired token"⟩ ∧
      ∀ handler2 : Nat → DB → Except HTTPError (DB × String),
        gatedRoute (fun _ => (none : Option Nat)) "t"
            (fun _ db => .ok (db, "ok")) ⟨[], [], 1, [], 1⟩ =
          gatedRoute (fun _ => (none : Option Nat)) "t" handler2
            ⟨[], [], 1, [], 1⟩) ∧
    gatedRoute (fun _ => some 7) "t"
        (fun c db => .ok (db, toString c)) ⟨[], [], 1, [], 1⟩ =
      .ok (⟨[], [], 1, [], 1⟩, "7") :=
  ⟨(gated_route_spec (fun _ => (none : Option Nat)) "t"
      (fun _ db => .ok (db, "ok")) ⟨[], [], 1, [], 1⟩).1 rfl,
   (gated_route_spec (fun _ => some 7) "t"
      (fun c db => .ok (db, toString c)) ⟨[], [], 1, [], 1⟩).2 7 rfl⟩

theorem strLtB_irrefl (l : List Char) : strLtB l l = false := by
  induction l with
  | nil => rfl
  | cons c rest ih => simp [strLtB, ih]

theorem strLtB_trans : ∀ {a b c : List Char},
    strLtB a b = true → strLtB b c = true → strLtB a c = true := by
  intro a
  induction a with
  | nil =>
      intro b c hab hbc
      cases b with
      | nil => exact absurd hab (by simp [strLtB])
      | cons y ys =>
          cases c with
          | nil => exact absurd hbc (by simp [strLtB])
          | cons z zs => rfl
  | cons x xs ih =>
      intro b c hab hbc
      cases b with
      | nil => exact absurd hab (by simp [strLtB])
      | cons y ys =>
          cases c with
          | nil => exact absurd hbc (by simp [strLtB])
          | cons z zs =>
              unfold strLtB at hab hbc ⊢
              by_cases hxy : x = y
              · subst hxy
                rw [if_pos rfl] at hab
                by_cases hyz : x = z
                · subst hyz
                  rw [if_pos rfl] at hbc
                  rw [if_pos rfl]
                  exact ih hab hbc
                · rwa [if_neg hyz] at hbc ⊢
              · rw [if_neg hxy] at hab
                by_cases hyz : y = z
                · subst hyz
                  rwa [if_neg hxy]
                · rw [if_neg hyz] at hbc
                  have hlt : x.toNat < z.toNat :=
                    Nat.lt_trans (of_decide_eq_true hab)
                      (of_decide_eq_true hbc)
                  have hxz : ¬ x = z := by
                    intro h
                    subst h
                    exact absurd (of_decide_eq_true hab)
                      (Nat.lt_asymm (of_decide_eq_true hbc))
                  rw [if_neg hxz]
                  exact decide_eq_true hlt

theorem char_toNat_inj {a b : Char} (h : a.toNat = b.toNat) : a = b := by
  have hv : a.val = b.val := by
    apply UInt32.toNat.inj
    exact h
  exact Char.eq_of_val_eq hv

theorem strLtB_trichotomy :
    ∀ a b : List Char, strLtB a b = true ∨ a = b ∨ strLtB b a = true := by
  intro a
  induction a with
  | nil =>
      intro b
      cases b with
      | nil => exact Or.inr (Or.inl rfl)
      | cons y ys => exact Or.inl rfl
  | cons x xs ih =>
      intro b
      cases b with
      | nil => exact Or.inr (Or.inr rfl)
      | cons y ys =>
          by_cases hxy : x = y
          · subst hxy
            rcases ih ys with h | h | h
            · exact Or.inl (by unfold strLtB; rwa [if_pos rfl])
            · exact Or.inr (Or.inl (by rw [h]))
            · exact Or.inr (Or.inr (by unfold strLtB; rwa [if_pos rfl]))
          · rcases Nat.lt_trichotomy x.toNat y.toNat with h | h | h
            · refine Or.inl ?_
              unfold strLtB
              rw [if_neg hxy]
              exact decide_eq_true h
            · exact absurd (char_toNat_inj h) hxy
            · refine Or.inr (Or.inr ?_)
              unfold strLtB
              rw [if_neg (fun hyx => hxy hyx.symm)]
              exact decide_eq_true h

theorem string_ext {a b : String} (h : a.data = b.data) : a = b := by
  cases a
  cases b
  exact congrArg String.mk h

instance : IsIrrefl String dateLt where
  irrefl a := by
    unfold dateLt
    simp [strLtB_irrefl]

instance : IsTotal ExpenseInDB expenseLE where
  total a b := by
    unfold expenseLE dateLt
    rcases strLtB_trichotomy a.date.data b.date.data with h | h | h
    · exact Or.inl (Or.inl h)
    · have hd : a.date = b.date := string_ext h
      rcases Nat.le_total a.id b.id with h2 | h2
      · exact Or.inl (Or.inr ⟨hd, h2⟩)
      · exact Or.inr (Or.inr ⟨hd.symm, h2⟩)
    · exact Or.inr (Or.inl h)

instance : IsTrans ExpenseInDB expenseLE where
  trans a b c hab hbc := by
    unfold expenseLE dateLt at *
    rcases hab with h1 | ⟨h1, h1'⟩ <;> rcases hbc with h2 | ⟨h2, h2'⟩
    · exact Or.inl (strLtB_trans h1 h2)
    · exact Or.inl (by rw [← h2]; exact h1)
    · exact Or.inl (by rw [h1]; exact h2)
    · exact Or.inr ⟨h1.trans h2, Nat.le_trans h1' h2'⟩

/-- C7: the expense list endpoint returns a permutation of every stored
expense, ordered ascending by the date string, and among rows sharing a
date, ordered by id (the ids being assigned in insertion order, this is
the stable insertion-order tie-break). -/
theorem expenses_listed_sorted (db : DB) :
    (get_expenses db).Perm db.expenses ∧
    (get_expenses db).Pairwise (fun a b =>
      (dateLt a.date b.date ∨ a.date = b.date) ∧
        (a.date = b.date → a.id ≤ b.id)) := by
  constructor
  · exact List.perm_insertionSort expenseLE db.expenses
  · have hs := List.sorted_insertionSort expenseLE db.expenses
    refine hs.imp ?_
    intro a b hab
    rcases hab with h | ⟨h, h'⟩
    · refine ⟨Or.inl h, ?_⟩
      intro heq
      rw [heq] at h
      exact absurd h (by unfold dateLt; simp [strLtB_irrefl])
    · exact ⟨Or.inr h, fun _ => h'⟩

theorem lookupAmt_addAmount (l : List (String × ℚ)) (d : String) (a : ℚ)
    (d' : String) :
    lookupAmt (addAmount l d a) d' =
      if d' = d then lookupAmt l d' + a else lookupAmt l d' := by
  induction l with
  | nil =>
      by_cases h : d' = d
      · subst h
        simp [addAmount, lookupAmt]
      · have h' : ¬ d = d' := fun heq => h heq.symm
        simp [addAmount, lookupAmt, h, h']
  | cons kv rest ih =>
      obtain ⟨k, v⟩ := kv
      by_cases hk : k = d
      · subst hk
        simp only [addAmount, if_pos rfl]
        by_cases h2 : k = d'
        · subst h2
          simp [lookupAmt]
        · have h2' : ¬ d' = k := fun heq => h2 heq.symm
          simp [lookupAmt, h2, h2']
      · simp only [addAmount, if_neg hk]
        by_cases h2 : k = d'
        · subst h2
          simp [lookupAmt, hk]
        · simp [lookupAmt, h2, ih]

theorem addAmount_fst (l : List (String × ℚ)) (d : String) (a : ℚ) :
    (addAmount l d a).map Prod.fst =
      if d ∈ l.map Prod.fst then l.map Prod.fst
      else l.map Prod.fst ++ [d] := by
  induction l with
  | nil => simp [addAmount]
  | cons kv rest ih =>
      obtain ⟨k, v⟩ := kv
      by_cases hk : k = d
      · subst hk
        simp [addAmount]
      · have hk' : ¬ d = k := fun heq => hk heq.symm
        simp only [addAmount, if_neg hk, List.map_cons, ih]
        by_cases hd : d ∈ rest.map Prod.fst
        · simp [hd, hk']
        · simp [hd, hk']

theorem graph_fold_lookup (l : List ExpenseInDB) :
    ∀ (acc : List (String × ℚ)) (d : String),
      lookupAmt (l.foldl (fun acc e => addAmount acc e.date e.amount) acc) d
        = lookupAmt acc d +
          ((l.filter (fun e => e.date = d)).map (fun e => e.amount)).sum := by
  induction l with
  | nil =>
      intro acc d
      simp
  | cons e rest ih =>
      intro acc d
      rw [List.foldl_cons, ih, lookupAmt_addAmount]
      by_cases h : d = e.date
      · rw [if_pos h]
        rw [List.filter_cons, if_pos (by simp [h.symm])]
        rw [List.map_cons, List.sum_cons]
        ring
      · rw [if_neg h]
        rw [List.filter_cons, if_neg (by simp; exact fun heq => h heq.symm)]

theorem graph_fold_mem_keys (l : List ExpenseInDB) :
    ∀ (acc : List (String × ℚ)) (d : String),
      (d ∈ (l.foldl (fun acc e => addAmount acc e.date e.amount) acc).map
          Prod.fst) ↔
        d ∈ acc.map Prod.fst ∨ d ∈ l.map (fun e => e.date) := by
  induction l with
  | nil =>
      intro acc d
      simp
  | cons e rest ih =>
      intro acc d
      rw [List.foldl_cons, ih, addAmount_fst]
      by_cases hd : e.date ∈ acc.map Prod.fst
      · rw [if_pos hd]
        simp only [List.map_cons, List.mem_cons]
        constructor
        · rintro (h | h)
          · exact Or.inl h
          · exact Or.inr (Or.inr h)
        · rintro (h | h | h)
          · exact Or.inl h
          · exact Or.inl (h ▸ hd)
          · exact Or.inr h
      · rw [if_neg hd]
        simp only [List.mem_append, List.mem_singleton, List.map_cons,
          List.mem_cons]
        tauto

theorem graph_fold_keys_sorted (l : List ExpenseInDB) :
    ∀ acc : List (String × ℚ),
      (l.map (fun e => e.date)).Pairwise
        (fun a b => dateLt a b ∨ a = b) →
      (acc.map Prod.fst).Pairwise dateLt →
      (∀ e ∈ l, ∀ k ∈ acc.map Prod.fst, dateLt k e.date ∨ k = e.date) →
      (((l.foldl (fun acc e => addAmount acc e.date e.amount) acc)).map
        Prod.fst).Pairwise dateLt := by
  induction l with
  | nil =>
      intro acc _ h2 _
      exact h2
  | cons e rest ih =>
      intro acc h1 h2 h3
      rw [List.map_cons, List.pairwise_cons] at h1
      obtain ⟨h1head, h1tail⟩ := h1
      rw [List.foldl_cons]
      refine ih _ h1tail ?_ ?_
      · rw [addAmount_fst]
        by_cases hd : e.date ∈ acc.map Prod.fst
        · rw [if_pos hd]
          exact h2
        · rw [if_neg hd]
          rw [List.pairwise_append]
          refine ⟨h2, by simp, ?_⟩
          intro k hk b hb
          rw [List.mem_singleton] at hb
          subst hb
          rcases h3 e (List.mem_cons_self e rest) k hk with hlt | heq
          · exact hlt
          · exact absurd (heq ▸ hk) hd
      · intro e' he' k hk
        have hle : dateLt e.date e'.date ∨ e.date = e'.date :=
          h1head e'.date (List.mem_map.mpr ⟨e', he', rfl⟩)
        rw [addAmount_fst] at hk
        have hstep : (k ∈ acc.map Prod.fst ∨ k = e.date) →
            dateLt k e'.date ∨ k = e'.date := by
          rintro (hka | hke)
          · rcases h3 e (List.mem_cons_self e rest) k hka with hlt | heq
            · rcases hle with hlt2 | heq2
              · exact Or.inl (strLtB_trans hlt hlt2)
              · rw [← heq2]
                exact Or.inl hlt
            · rcases hle with hlt2 | heq2
              · rw [heq]
                exact Or.inl hlt2
              · rw [heq, heq2]
                exact Or.inr rfl
          · rw [hke]
            exact hle
        by_cases hd : e.date ∈ acc.map Prod.fst
        · rw [if_pos hd] at hk
          exact hstep (Or.inl hk)
        · rw [if_neg hd] at hk
          rw [List.mem_append, List.mem_singleton] at hk
          exact hstep hk

theorem lookupAmt_of_mem (g : List (String × ℚ)) (d : String) (t : ℚ)
    (hnd : (g.map Prod.fst).Nodup) (hmem : (d, t) ∈ g) :
    lookupAmt g d = t := by
  induction g with
  | nil => cases hmem
  | cons kv rest ih =>
      obtain ⟨k, v⟩ := kv
      rw [List.map_cons, List.nodup_cons] at hnd
      obtain ⟨hknot, hndrest⟩ := hnd
      rcases List.mem_cons.mp hmem with h | h
      · rw [Prod.mk.injEq] at h
        obtain ⟨hd, ht⟩ := h
        unfold lookupAmt
        rw [if_pos hd.symm]
        exact ht.symm
      · have hk : k ≠ d := by
          intro hkd
          subst hkd
          exact hknot (List.mem_map.mpr ⟨(k, t), h, rfl⟩)
        unfold lookupAmt
        rw [if_neg hk]
        exact ih hndrest h

/-- C3: the graph endpoint returns one `(date, total)` pair per distinct
stored date — membership of a date among the keys is equivalent to some
stored expense having that date, the keys are strictly ascending in the
date order (hence each date appears once, in ascending first-encounter
order), and each total is the sum of the amounts of exactly the expenses
with that date; on the spec's example rows the result is
`[("2024-01-01", 15), ("2024-01-02", 2)]`. -/
theorem graph_aggregation (db : DB) :
    ((get_expenses_graph db).map Prod.fst).Pairwise dateLt ∧
    (∀ d, (∃ t, (d, t) ∈ get_expenses_graph db) ↔
      ∃ e ∈ db.expenses, e.date = d) ∧
    (∀ d t, (d, t) ∈ get_expenses_graph db →
      t = ((db.expenses.filter (fun e => e.date = d)).map
        (fun e => e.amount)).sum) ∧
    get_expenses_graph
      ⟨[], [⟨1, "a", 10, "c", "2024-01-01"⟩, ⟨2, "b", 5, "c", "2024-01-01"⟩,
        ⟨3, "c", 2, "c", "2024-01-02"⟩], 4, [], 1⟩ =
      [("2024-01-01", 15), ("2024-01-02", 2)] := by
  have hperm := List.perm_insertionSort expenseLE db.expenses
  have hsorted := List.sorted_insertionSort expenseLE db.expenses
  have hdates : ((List.insertionSort expenseLE db.expenses).map
      (fun e => e.date)).Pairwise (fun a b => dateLt a b ∨ a = b) := by
    rw [List.pairwise_map]
    refine hsorted.imp ?_
    intro a b hab
    rcases hab with h | ⟨h, _⟩
    · exact Or.inl h
    · exact Or.inr h
  have hkeys : ((get_expenses_graph db).map Prod.fst).Pairwise dateLt := by
    unfold get_expenses_graph
    exact graph_fold_keys_sorted _ [] hdates (by simp) (by simp)
  refine ⟨hkeys, ?_, ?_, ?_⟩
  · intro d
    constructor
    · rintro ⟨t, ht⟩
      have hd : d ∈ (get_expenses_graph db).map Prod.fst :=
        List.mem_map.mpr ⟨(d, t), ht, rfl⟩
      unfold get_expenses_graph at hd
      rw [graph_fold_mem_keys] at hd
      rcases hd with h | h
      · simp at h
      · have : d ∈ db.expenses.map (fun e => e.date) :=
          (hperm.map (fun e => e.date)).mem_iff.mp h
        obtain ⟨e, he, hed⟩ := List.mem_map.mp this
        exact ⟨e, he, hed⟩
    · rintro ⟨e, he, hed⟩
      have hd : d ∈ (get_expenses_graph db).map Prod.fst := by
        unfold get_expenses_graph
        rw [graph_fold_mem_keys]
        refine Or.inr ?_
        exact (hperm.map (fun e => e.date)).mem_iff.mpr
          (List.mem_map.mpr ⟨e, he, hed⟩)
      obtain ⟨p, hp, hpd⟩ := List.mem_map.mp hd
      refine ⟨p.2, ?_⟩
      rw [← hpd]
      exact hp
  · intro d t ht
    have hnd : ((get_expenses_graph db).map Prod.fst).Nodup :=
      hkeys.nodup
    have hl := lookupAmt_of_mem _ d t hnd ht
    unfold get_expenses_graph at hl
    rw [graph_fold_lookup] at hl
    have hsum : (((List.insertionSort expenseLE db.expenses).filter
        (fun e => e.date = d)).map (fun e => e.amount)).sum =
        ((db.expenses.filter (fun e => e.date = d)).map
          (fun e => e.amount)).sum :=
      ((hperm.filter _).map _).sum_eq
    rw [← hsum]
    rw [← hl]
    simp [lookupAmt]
  · simp +decide [get_expenses_graph, List.insertionSort,
      List.orderedInsert, addAmount]
    norm_num

/-- Witness for C3 on the spec's example rows: the pair
`("2024-01-01", 15)` is produced, and 15 is the sum of the amounts of the
expenses dated `2024-01-01`. -/
theorem graph_aggregation_witness :
    (("2024-01-01", (15 : ℚ)) ∈ get_expenses_graph
      ⟨[], [⟨1, "a", 10, "c", "2024-01-01"⟩, ⟨2, "b", 5, "c", "2024-01-01"⟩,
        ⟨3, "c", 2, "c", "2024-01-02"⟩], 4, [], 1⟩) ∧
    (15 : ℚ) = ((([⟨1, "a", 10, "c", "2024-01-01"⟩,
        ⟨2, "b", 5, "c", "2024-01-01"⟩,
        ⟨3, "c", 2, "c", "2024-01-02"⟩] : List ExpenseInDB).filter
          (fun e => e.date = "2024-01-01")).map (fun e => e.amount)).sum := by
  have h := graph_aggregation
    ⟨[], [⟨1, "a", 10, "c", "2024-01-01"⟩, ⟨2, "b", 5, "c", "2024-01-01"⟩,
      ⟨3, "c", 2, "c", "2024-01-02"⟩], 4, [], 1⟩
  have hmem : ("2024-01-01", (15 : ℚ)) ∈ get_expenses_graph
      ⟨[], [⟨1, "a", 10, "c", "2024-01-01"⟩, ⟨2, "b", 5, "c", "2024-01-01"⟩,
        ⟨3, "c", 2, "c", "2024-01-02"⟩], 4, [], 1⟩ := by
    rw [h.2.2.2]
    simp
  exact ⟨hmem, h.2.2.1 "2024-01-01" 15 hmem⟩

/-- Witness for C7: listing the expenses of a store whose rows were
inserted with out-of-order dates yields a permutation of the rows,
sorted ascending by date with the id tie-break. -/
theorem expenses_listed_sorted_witness :
    (get_expenses ⟨[], [⟨1, "a", 3, "c", "2024-02-01"⟩,
        ⟨2, "b", 4, "c", "2024-01-01"⟩, ⟨3, "c", 5, "c", "2024-02-01"⟩],
        4, [], 1⟩).Perm
      [⟨1, "a", 3, "c", "2024-02-01"⟩, ⟨2, "b", 4, "c", "2024-01-01"⟩,
       ⟨3, "c", 5, "c", "2024-02-01"⟩] ∧
    (get_expenses ⟨[], [⟨1, "a", 3, "c", "2024-02-01"⟩,
        ⟨2, "b", 4, "c", "2024-01-01"⟩, ⟨3, "c", 5, "c", "2024-02-01"⟩],
        4, [], 1⟩).Pairwise (fun a b =>
      (dateLt a.date b.date ∨ a.date = b.date) ∧
        (a.date = b.date → a.id ≤ b.id)) :=
  expenses_listed_sorted ⟨[], [⟨1, "a", 3, "c", "2024-02-01"⟩,
    ⟨2, "b", 4, "c", "2024-01-01"⟩, ⟨3, "c", 5, "c", "2024-02-01"⟩],
    4, [], 1⟩

end PennyWise
